import Mathlib

/-!
Verification of the table-extraction and reconciliation core of the
Enhanced-OCR-Web-App repository (`table_extractors.py` and the
table-consuming part of `enhanced_ocr.py`), as a shallow embedding.

Modelling conventions:
* pandas `DataFrame`s are modelled as a grid of string cells together with
  an optional promoted header row and an explicit column count
  (`shape = (rows.length, ncols)`; `df.empty` is true iff an axis is 0,
  matching pandas, where a frame full of empty strings is NOT empty).
* Python exceptions are modelled with `Except PyErr`; a bare
  `try ... except: return x` becomes a `match` that maps `.error` to `x`.
* Backend libraries (fitz, camelot, tabula, jpype, the java subprocess)
  are modelled as inputs: a `Doc` value stands for a successfully opened
  fitz document, and the results the external libraries would return are
  fields of a `World` record.  Floating-point accuracy scores are
  modelled as integers; only their order at the 80 threshold matters.
* `list.sort(key=...)` (Python, stable) is modelled by a stable insertion
  sort on the y0 key; stable sorting has a unique output, so this is
  observationally the same function.
-/

/-- Axis-aligned rectangle with the fitz coordinate convention
(x0,y0)-(x1,y1).  Coordinates are modelled as integers. -/
structure Rect where
  x0 : Int
  y0 : Int
  x1 : Int
  y1 : Int
deriving DecidableEq

/-- `fitz.Rect.intersects`: the two rectangles have a non-empty
intersection (strict inequalities: touching edges do not intersect). -/
def Rect.intersects (a b : Rect) : Bool :=
  decide (max a.x0 b.x0 < min a.x1 b.x1) && decide (max a.y0 b.y0 < min a.y1 b.y1)

/-- One entry of `page.get_text("blocks")`: bounding rectangle plus the
text payload (tuple positions 0-3 and 4 in fitz). -/
structure TextBlock where
  rect : Rect
  text : String
deriving DecidableEq

/-- Model of a pandas DataFrame as used by the pipeline: `header` is the
column labels when a data row has been promoted to them (`df.columns =
df.iloc[0]`), `rows` the data grid, `ncols` the column count.
`shape = (rows.length, ncols)`. -/
structure DataFrame where
  header : Option (List String)
  rows : List (List String)
  ncols : Nat
deriving DecidableEq

/-- A raw table object as returned by `page.find_tables()` (PyMuPDF):
row/column counts plus the text of each cell.  `cellText i j` models
`table.extract_cell(i, j).text if cell else ""`, hence always a string. -/
structure RawTable where
  row_count : Nat
  column_count : Nat
  cellText : Nat → Nat → String

/-- A successfully opened fitz document: page count, the
`page.find_tables()` result per page and the `page.get_text()` result
per page. -/
structure Doc where
  numPages : Nat
  findTables : Nat → List RawTable
  pageText : Nat → String

/-- A camelot table object: its `accuracy` score (float in the source,
modelled as an integer) and its `.df` DataFrame. -/
structure CamelotTable where
  accuracy : Int
  df : DataFrame
deriving DecidableEq

/-- Python exceptions relevant to the pipeline. -/
inductive PyErr where
  | openError
  | indexError
  | runtime
deriving DecidableEq

/-- Outcome of `import jpype` inside the Tabula compatibility probe:
success, an `ImportError`, or any other exception raised by the import. -/
inductive ImportOutcome where
  | ok
  | importError
  | otherError
deriving DecidableEq

/-- The three table-extraction backends of `table_extractors.py`. -/
inductive Backend where
  | pymupdf
  | camelot
  | tabula
deriving DecidableEq

/-- A reconciled table tagged with its page (`table.attrs = {'page': n}`). -/
structure TaggedTable where
  df : DataFrame
  page : Nat
deriving DecidableEq

/-- One unit emitted by the per-page body of `pdf_to_docx`: a free-text
paragraph built from an original block, the bold "Table" heading, a
styled table, or the empty spacer paragraph after a table. -/
inductive RenderUnit where
  | text (b : TextBlock)
  | tableHeading
  | table (df : DataFrame)
  | spacer
deriving DecidableEq

/-- The page data consumed by the table-aware branch of `pdf_to_docx`:
the `page.get_text("blocks")` result and the rectangles of
`page.find_tables()`. -/
structure PageModel where
  blocks : List TextBlock
  tableRects : List Rect

/-- The external world surrounding one conversion of one document whose
`fitz.open` succeeded: the opened document, the per-page results that
`camelot.read_pdf` and `tabula.read_pdf` would return in each flavor,
and the value returned by the Tabula compatibility probe when it
returns normally. -/
structure World where
  doc : Doc
  camelotLattice : Nat → Except PyErr (List CamelotTable)
  camelotStream : Nat → Except PyErr (List CamelotTable)
  tabulaLattice : Nat → Except PyErr (List DataFrame)
  tabulaStream : Nat → Except PyErr (List DataFrame)
  tabulaProbe : Bool

/-! ## PyMuPDFTableExtractor (table_extractors.py lines 21-51) -/

/-- `pandas.isna` on a cell of the PyMuPDF grid.  Every cell is a Python
`str` (`cell.text if cell else ""`), and strings are never NA in pandas,
so the predicate is constantly false. -/
def str_isna (_ : String) : Bool := false

/-- The grid built by the two nested loops over
`table.row_count` × `table.column_count`. -/
def buildRows (t : RawTable) : List (List String) :=
  (List.range t.row_count).map (fun i => (List.range t.column_count).map (fun j => t.cellText i j))

/-- `df.empty` (pandas): some axis has length zero. -/
def dfEmpty (df : DataFrame) : Bool :=
  df.rows.length == 0 || df.ncols == 0

/-- `df.iloc[0].isna().all()`: all cells of the first row are NA
(vacuously true for a rowless or columnless frame). -/
def firstRowAllNa (df : DataFrame) : Bool :=
  (df.rows.headD []).all str_isna

/-- Per-table body of `PyMuPDFTableExtractor.extract_tables`: build the
grid, and `if rows:` make a DataFrame, promoting the first row to header
when `not df.empty and not df.iloc[0].isna().all()`.  Returns `none`
when the table contributes nothing (`rows` empty). -/
def processRawTable (t : RawTable) : Option DataFrame :=
  let rows := buildRows t
  if rows.isEmpty then none
  else
    let df : DataFrame := ⟨none, rows, t.column_count⟩
    if !dfEmpty df && !firstRowAllNa df then
      some ⟨some (rows.headD []), rows.tail, t.column_count⟩
    else
      some df

/-- `PyMuPDFTableExtractor.extract_tables`: open the document (a failed
open propagates its error — there is no handler in this method), index
the page (an out-of-range index raises `IndexError`), then process each
found table.  `openRes` is the outcome of `fitz.open(pdf_path)`. -/
def pymupdf_extract_tables (openRes : Except PyErr Doc) (page_num : Nat) :
    Except PyErr (List DataFrame) :=
  match openRes with
  | .error e => .error e
  | .ok doc =>
    if page_num < doc.numPages then
      .ok ((doc.findTables page_num).filterMap processRawTable)
    else
      .error .indexError

/-! ## CamelotTableExtractor (table_extractors.py lines 53-93) -/

/-- Placeholder camelot table used only to express `tables[0]` on a list
that the guarding length test has already shown non-empty. -/
def camelotDummy : CamelotTable := ⟨0, ⟨none, [], 0⟩⟩

/-- The try-block body of `CamelotTableExtractor.extract_tables`:
lattice pass first; if it found nothing or its first table has accuracy
below 80, run the stream pass and keep it when it is non-empty with the
better score. -/
def camelot_body (lattice stream : Except PyErr (List CamelotTable)) :
    Except PyErr (List CamelotTable) :=
  match lattice with
  | .error e => .error e
  | .ok tables =>
    if tables.length == 0 ||
       (decide (0 < tables.length) && decide ((tables.headD camelotDummy).accuracy < 80)) then
      match stream with
      | .error e => .error e
      | .ok stream_tables =>
        if decide (0 < stream_tables.length) &&
           (tables.length == 0 ||
            decide ((tables.headD camelotDummy).accuracy < (stream_tables.headD camelotDummy).accuracy)) then
          .ok stream_tables
        else
          .ok tables
    else
      .ok tables

/-- `CamelotTableExtractor.extract_tables`: the body above wrapped in
`try ... except Exception: return []`, then `[t.df for t in tables]`. -/
def camelot_extract_tables (lattice stream : Except PyErr (List CamelotTable)) :
    Except PyErr (List DataFrame) :=
  match camelot_body lattice stream with
  | .ok tables => .ok (tables.map CamelotTable.df)
  | .error _ => .ok []

/-- Models `len(text.strip()) > 0`: the string contains at least one
non-whitespace character. -/
def hasNonWhitespace (s : String) : Bool :=
  s.data.any (fun c => !c.isWhitespace)

/-- `CamelotTableExtractor.is_compatible`: open the document, read page
0, return whether its text strips to non-empty; the whole body is under
a bare `except: return False`, so a failed open or the `IndexError` of
`doc[0]` on a zero-page document yields `false`. -/
def camelot_is_compatible (openRes : Except PyErr Doc) : Bool :=
  match openRes with
  | .error _ => false
  | .ok doc =>
    if 0 < doc.numPages then hasNonWhitespace (doc.pageText 0)
    else false

/-! ## TabulaTableExtractor (table_extractors.py lines 95-134) -/

/-- The try-block body of `TabulaTableExtractor.extract_tables`: the
lattice pass, falling back to the stream pass when it returned no
tables. -/
def tabula_body (latticeRes streamRes : Except PyErr (List DataFrame)) :
    Except PyErr (List DataFrame) :=
  match latticeRes with
  | .error e => .error e
  | .ok tables => if tables.isEmpty then streamRes else .ok tables

/-- `TabulaTableExtractor.extract_tables`: the body wrapped in
`try ... except Exception: return []`. -/
def tabula_extract_tables (latticeRes streamRes : Except PyErr (List DataFrame)) :
    Except PyErr (List DataFrame) :=
  match tabula_body latticeRes streamRes with
  | .ok tables => .ok tables
  | .error _ => .ok []

/-- `TabulaTableExtractor.is_compatible`: `import jpype` under
`except ImportError`, whose handler probes `java -version` under a bare
`except`.  An exception from the import that is not an `ImportError`
is caught by neither handler and propagates. -/
def tabula_is_compatible (jpypeImport : ImportOutcome) (javaCheck : Except PyErr Unit) :
    Except PyErr Bool :=
  match jpypeImport with
  | .ok => .ok true
  | .importError =>
    match javaCheck with
    | .ok _ => .ok true
    | .error _ => .ok false
  | .otherError => .error .runtime

/-! ## TableExtractorFactory (table_extractors.py lines 136-166) -/

/-- `TableExtractorFactory.create_extractors()`. -/
def create_extractors : List Backend :=
  [Backend.pymupdf, Backend.camelot, Backend.tabula]

/-- `TableExtractorFactory.get_best_extractor`, parametrised by the
boolean outcome of each `is_compatible` probe: filter the extractor
list by compatibility; if empty, fall back to PyMuPDF; otherwise prefer
Camelot, then Tabula, then the first compatible extractor. -/
def get_best_extractor (compat : Backend → Bool) : Backend :=
  match create_extractors.filter compat with
  | [] => Backend.pymupdf
  | e :: es =>
    if (e :: es).contains Backend.camelot then Backend.camelot
    else if (e :: es).contains Backend.tabula then Backend.tabula
    else e

/-! ## combine_tables (table_extractors.py lines 168-201) -/

/-- `shape_sig = f"{table.shape[0]}x{table.shape[1]}"`. -/
def shapeSig (df : DataFrame) : String :=
  toString df.rows.length ++ "x" ++ toString df.ncols

/-- `table.iloc[:3, :3].values.flatten()`: at most the first 3 rows and
first 3 columns of the data grid, flattened row-major. -/
def sampleFlat (df : DataFrame) : List String :=
  ((df.rows.take 3).map (fun r => r.take 3)).flatten

/-- `data_sig = str(sample.values.flatten())`: the stringified flattened
corner sample. -/
def dataSig (df : DataFrame) : String :=
  toString (sampleFlat df)

/-- `signature = f"{shape_sig}:{data_sig}"`. -/
def tableSig (df : DataFrame) : String :=
  shapeSig df ++ ":" ++ dataSig df

/-- The deduplication loop of `combine_tables`: skip empty frames, skip
frames whose signature is already in the seen set, otherwise keep the
frame and record its signature. -/
def dedupLoop : List DataFrame → List String → List DataFrame
  | [], _ => []
  | t :: ts, seen =>
    if dfEmpty t then dedupLoop ts seen
    else if seen.contains (tableSig t) then dedupLoop ts seen
    else t :: dedupLoop ts (tableSig t :: seen)

/-- The flattening comprehension of `combine_tables`:
`[table for sublist in all_tables for table in sublist if not table.empty]`. -/
def nonEmptyFlatten (all_tables : List (List DataFrame)) : List DataFrame :=
  all_tables.flatten.filter (fun t => !dfEmpty t)

/-- `combine_tables`: early-return `[]` on a falsy argument, flatten
keeping non-empty frames, then deduplicate by signature keeping the
first occurrence. -/
def combine_tables (all_tables : List (List DataFrame)) : List DataFrame :=
  if all_tables.isEmpty then []
  else dedupLoop (nonEmptyFlatten all_tables) []

/-! ## extract_all_tables (table_extractors.py lines 203-243) -/

/-- The `is_compatible` outcome per backend for a world in which every
probe returns: the base-class probe of the PyMuPDF extractor is
literally `return True`; the Camelot probe inspects the opened
document; the Tabula probe result is the world's `tabulaProbe` field. -/
def compatOf (w : World) : Backend → Bool
  | .pymupdf => true
  | .camelot => camelot_is_compatible (.ok w.doc)
  | .tabula => w.tabulaProbe

/-- `extractor.extract_tables(pdf_path, page_num)` for each backend.
The document opens successfully in this world, so the PyMuPDF adapter
re-opens it to the same `Doc`. -/
def backend_extract (w : World) (page : Nat) : Backend → Except PyErr (List DataFrame)
  | .pymupdf => pymupdf_extract_tables (.ok w.doc) page
  | .camelot => camelot_extract_tables (w.camelotLattice page) (w.camelotStream page)
  | .tabula => tabula_extract_tables (w.tabulaLattice page) (w.tabulaStream page)

/-- The list a successful `backend_extract` returns (the error case is
never reached for an in-range page; see `backend_extract_eq_ok`). -/
def extract_ok (w : World) (page : Nat) (b : Backend) : List DataFrame :=
  match backend_extract w page b with
  | .ok l => l
  | .error _ => []

/-- The rerun-everything loop of `extract_all_tables`: for each
extractor, if compatible, extract, and append a non-empty result to
`page_tables`. -/
def fallback_loop (w : World) (page : Nat) : List Backend → Except PyErr (List (List DataFrame))
  | [] => .ok []
  | e :: es =>
    if compatOf w e then
      match backend_extract w page e with
      | .error err => .error err
      | .ok tables =>
        match fallback_loop w page es with
        | .error err => .error err
        | .ok rest => .ok (if tables.isEmpty then rest else tables :: rest)
    else fallback_loop w page es

/-- The `page_tables` collection that `extract_all_tables` hands to
`combine_tables` for one page: the best extractor's non-empty result
alone, or, when the best extractor found nothing, the non-empty results
of every compatible extractor. -/
def page_candidates (w : World) (page : Nat) : Except PyErr (List (List DataFrame)) :=
  match backend_extract w page (get_best_extractor (compatOf w)) with
  | .error err => .error err
  | .ok tables =>
    if tables.isEmpty then fallback_loop w page create_extractors
    else .ok [tables]

/-- The page loop of `extract_all_tables`: skip out-of-range pages,
otherwise reconcile the page candidates and tag each kept table with
the page number. -/
def pages_loop (w : World) : List Nat → Except PyErr (List TaggedTable)
  | [] => .ok []
  | p :: ps =>
    if w.doc.numPages ≤ p then pages_loop w ps
    else
      match page_candidates w p with
      | .error err => .error err
      | .ok cands =>
        match pages_loop w ps with
        | .error err => .error err
        | .ok rest => .ok ((combine_tables cands).map (fun t => ⟨t, p⟩) ++ rest)

/-- `extract_all_tables(pdf_path, page_nums)` for a document that opened
successfully: default `page_nums` to `range(len(doc))`, then run the
page loop. -/
def extract_all_tables (w : World) (page_nums : Option (List Nat)) :
    Except PyErr (List TaggedTable) :=
  match page_nums with
  | none => pages_loop w (List.range w.doc.numPages)
  | some l => pages_loop w l

/-! ## pdf_to_docx, table-aware page body (enhanced_ocr.py lines 185-228) -/

/-- Whether a block's rectangle intersects any detected table
rectangle: `any(block_rect.intersects(t) for t in table_positions)`. -/
def overlapsAnyTable (b : TextBlock) (rects : List Rect) : Bool :=
  rects.any (fun r => b.rect.intersects r)

/-- Stable insertion of a block into a list sorted by `y0`: the new
(earlier-in-input) block goes before the first element whose key is not
strictly smaller. -/
def insertByY0 (b : TextBlock) : List TextBlock → List TextBlock
  | [] => [b]
  | c :: cs =>
    if decide (c.rect.y0 < b.rect.y0) then c :: insertByY0 b cs
    else b :: c :: cs

/-- `blocks.sort(key=lambda b: b[1])`: Python's stable sort by the y0
coordinate, modelled by stable insertion sort (the stable-sorted output
is unique, so the two agree as functions). -/
def sortBlocks : List TextBlock → List TextBlock
  | [] => []
  | b :: bs => insertByY0 b (sortBlocks bs)

/-- The per-page body of `pdf_to_docx`: with tables present, sort the
blocks, emit each block that overlaps no detected table rectangle as a
paragraph, then for each table emit the bold "Table" heading, the
styled table, and an empty spacer paragraph; with no tables, emit every
sorted block. -/
def page_render (page : PageModel) (pageTables : List DataFrame) : List RenderUnit :=
  if pageTables.isEmpty then
    (sortBlocks page.blocks).map RenderUnit.text
  else
    ((sortBlocks page.blocks).filter (fun b => !overlapsAnyTable b page.tableRects)).map RenderUnit.text
      ++ pageTables.flatMap (fun t => [RenderUnit.tableHeading, RenderUnit.table t, RenderUnit.spacer])

/-! ## Derived observations and concrete inputs used by the theorems -/

/-- Whether the PyMuPDF per-table processing promoted the first data row
to the header position. -/
def headerPromoted : Option DataFrame → Bool
  | some df => df.header.isSome
  | none => false

/-- A 3×4 frame. -/
def dfA : DataFrame :=
  ⟨none, [["a", "b", "c", "d"], ["e", "f", "g", "h"], ["i", "j", "k", "l"]], 4⟩

/-- A 3×4 frame agreeing with `dfA` on the first 3×3 corner but
differing in the fourth column. -/
def dfB : DataFrame :=
  ⟨none, [["a", "b", "c", "X"], ["e", "f", "g", "Y"], ["i", "j", "k", "Z"]], 4⟩

/-- A 1×1 frame whose only cell is the empty string: non-empty in the
pandas sense although it has zero non-empty cells. -/
def dfBlank : DataFrame := ⟨none, [[""]], 1⟩

/-- A 1×1 frame with content, used to exercise membership facts. -/
def dfW6 : DataFrame := ⟨none, [["a"]], 1⟩

/-- A raw PyMuPDF table whose first row has a blank first cell. -/
def rtBlankCell : RawTable := ⟨2, 2, fun i j => if i == 0 && j == 0 then "" else "x"⟩

/-- A one-page document with no detected tables and no text. -/
def docC3 : Doc := ⟨1, fun _ => [], fun _ => ""⟩

/-- A demonstration world: a one-page document with extractable text
(so Camelot is compatible and selected), on which Camelot finds
nothing, while the PyMuPDF structural detector reports one 2×1 table. -/
def wdemo : World :=
  ⟨⟨1, fun _ => [⟨2, 1, fun _ _ => "a"⟩], fun _ => "x"⟩,
   fun _ => .ok [], fun _ => .ok [], fun _ => .ok [], fun _ => .ok [], false⟩

/-- The table the demonstration world yields after header promotion. -/
def dfDemo : DataFrame := ⟨some ["a"], [["a"]], 1⟩

/-- A block sitting clear of the only table rectangle of `pgDemo`. -/
def blkDemo : TextBlock := ⟨⟨0, 0, 10, 10⟩, "hello"⟩

/-- A page with one block and one detected table rectangle that the
block does not touch. -/
def pgDemo : PageModel := ⟨[blkDemo], [⟨20, 20, 30, 30⟩]⟩

/-! ## Helper lemmas -/

theorem dedupLoop_mem {ts : List DataFrame} {seen : List String} {t : DataFrame}
    (h : t ∈ dedupLoop ts seen) :
    t ∈ ts ∧ dfEmpty t = false ∧ tableSig t ∉ seen := by
  induction ts generalizing seen with
  | nil => simp [dedupLoop] at h
  | cons v ts ih =>
    rw [dedupLoop] at h
    by_cases hv : dfEmpty v
    · rw [if_pos hv] at h
      obtain ⟨h1, h2, h3⟩ := ih h
      exact ⟨List.mem_cons_of_mem _ h1, h2, h3⟩
    · rw [if_neg hv] at h
      by_cases hs : tableSig v ∈ seen
      · rw [if_pos (by simpa using hs)] at h
        obtain ⟨h1, h2, h3⟩ := ih h
        exact ⟨List.mem_cons_of_mem _ h1, h2, h3⟩
      · rw [if_neg (by simpa using hs)] at h
        rcases List.mem_cons.mp h with rfl | h
        · exact ⟨List.mem_cons_self _ _, Bool.eq_false_iff.mpr hv, hs⟩
        · obtain ⟨h1, h2, h3⟩ := ih h
          exact ⟨List.mem_cons_of_mem _ h1, h2, fun hm => h3 (List.mem_cons_of_mem _ hm)⟩

theorem dedupLoop_pairwise (ts : List DataFrame) (seen : List String) :
    List.Pairwise (fun a b => tableSig a ≠ tableSig b) (dedupLoop ts seen) := by
  induction ts generalizing seen with
  | nil => simp [dedupLoop]
  | cons v ts ih =>
    rw [dedupLoop]
    by_cases hv : dfEmpty v
    · rw [if_pos hv]; exact ih seen
    · rw [if_neg hv]
      by_cases hs : tableSig v ∈ seen
      · rw [if_pos (by simpa using hs)]; exact ih seen
      · rw [if_neg (by simpa using hs)]
        refine List.Pairwise.cons (fun b hb => ?_) (ih _)
        have h3 := (dedupLoop_mem hb).2.2
        intro hcontra
        exact h3 (by rw [← hcontra]; exact List.mem_cons_self _ _)

theorem dedupLoop_find_first {ts : List DataFrame} (seen : List String)
    (hne : ∀ u ∈ ts, dfEmpty u = false) {t : DataFrame} (h : t ∈ dedupLoop ts seen) :
    ts.find? (fun u => tableSig u == tableSig t) = some t := by
  induction ts generalizing seen with
  | nil => simp [dedupLoop] at h
  | cons v ts ih =>
    rw [dedupLoop] at h
    have hv : dfEmpty v = false := hne v (List.mem_cons_self _ _)
    rw [hv] at h
    simp only [Bool.false_eq_true, if_false] at h
    have hne' : ∀ u ∈ ts, dfEmpty u = false := fun u hu => hne u (List.mem_cons_of_mem _ hu)
    by_cases hs : tableSig v ∈ seen
    · rw [if_pos (by simpa using hs)] at h
      have ht : tableSig t ∉ seen := (dedupLoop_mem h).2.2
      have hvt : (tableSig v == tableSig t) = false := by
        simp only [beq_eq_false_iff_ne, ne_eq]
        intro hcontra
        exact ht (hcontra ▸ hs)
      rw [List.find?_cons, hvt]
      exact ih seen hne' h
    · rw [if_neg (by simpa using hs)] at h
      rcases List.mem_cons.mp h with rfl | h
      · rw [List.find?_cons, beq_self_eq_true]
      · have ht : tableSig t ∉ tableSig v :: seen := (dedupLoop_mem h).2.2
        have hvt : (tableSig v == tableSig t) = false := by
          simp only [beq_eq_false_iff_ne, ne_eq]
          intro hcontra
          exact ht (hcontra ▸ List.mem_cons_self _ _)
        rw [List.find?_cons, hvt]
        exact ih _ hne' h

theorem dedupLoop_sig_covered {ts : List DataFrame} (seen : List String)
    {u : DataFrame} (hu : u ∈ ts) (hne : dfEmpty u = false) :
    tableSig u ∈ seen ∨ ∃ t ∈ dedupLoop ts seen, tableSig t = tableSig u := by
  induction ts generalizing seen with
  | nil => simp at hu
  | cons v ts ih =>
    rw [dedupLoop]
    by_cases hv : dfEmpty v
    · rw [if_pos hv]
      rcases List.mem_cons.mp hu with rfl | hu
      · rw [hne] at hv; simp at hv
      · exact ih seen hu
    · rw [if_neg hv]
      by_cases hs : tableSig v ∈ seen
      · rw [if_pos (by simpa using hs)]
        rcases List.mem_cons.mp hu with rfl | hu
        · exact Or.inl hs
        · exact ih seen hu
      · rw [if_neg (by simpa using hs)]
        rcases List.mem_cons.mp hu with rfl | hu
        · exact Or.inr ⟨u, List.mem_cons_self _ _, rfl⟩
        · rcases ih (tableSig v :: seen) hu with hmem | ⟨t, ht, hsig⟩
          · rcases List.mem_cons.mp hmem with heq | hmem
            · exact Or.inr ⟨v, List.mem_cons_self _ _, heq.symm⟩
            · exact Or.inl hmem
          · exact Or.inr ⟨t, List.mem_cons_of_mem _ ht, hsig⟩

theorem dedupLoop_eq_self {l : List DataFrame} (seen : List String)
    (h1 : ∀ t ∈ l, dfEmpty t = false)
    (h2 : List.Pairwise (fun a b => tableSig a ≠ tableSig b) l)
    (h3 : ∀ t ∈ l, tableSig t ∉ seen) :
    dedupLoop l seen = l := by
  induction l generalizing seen with
  | nil => simp [dedupLoop]
  | cons v l ih =>
    rw [dedupLoop]
    rw [h1 v (List.mem_cons_self _ _)]
    simp only [Bool.false_eq_true, if_false]
    rw [if_neg (by simpa using h3 v (List.mem_cons_self _ _))]
    congr 1
    refine ih _ (fun t ht => h1 t (List.mem_cons_of_mem _ ht)) (List.Pairwise.of_cons h2)
      (fun t ht => ?_)
    intro hm
    rcases List.mem_cons.mp hm with heq | hm
    · exact (List.rel_of_pairwise_cons h2 ht) heq.symm
    · exact h3 t (List.mem_cons_of_mem _ ht) hm

theorem combine_tables_mem {all_tables : List (List DataFrame)} {t : DataFrame}
    (h : t ∈ combine_tables all_tables) :
    t ∈ nonEmptyFlatten all_tables ∧ dfEmpty t = false := by
  rw [combine_tables] at h
  by_cases he : all_tables.isEmpty
  · rw [if_pos he] at h; simp at h
  · rw [if_neg he] at h
    obtain ⟨h1, h2, _⟩ := dedupLoop_mem h
    exact ⟨h1, h2⟩

theorem camelot_extract_tables_isOk (lattice stream : Except PyErr (List CamelotTable)) :
    ∃ r, camelot_extract_tables lattice stream = .ok r := by
  rw [camelot_extract_tables]
  rcases hb : camelot_body lattice stream with e | l
  · exact ⟨[], rfl⟩
  · exact ⟨_, rfl⟩

theorem tabula_extract_tables_isOk (latticeRes streamRes : Except PyErr (List DataFrame)) :
    ∃ r, tabula_extract_tables latticeRes streamRes = .ok r := by
  rw [tabula_extract_tables]
  rcases hb : tabula_body latticeRes streamRes with e | l
  · exact ⟨[], rfl⟩
  · exact ⟨_, rfl⟩

theorem backend_extract_eq_ok (w : World) {p : Nat} (hp : p < w.doc.numPages) (b : Backend) :
    backend_extract w p b = .ok (extract_ok w p b) := by
  cases b with
  | pymupdf =>
    rw [extract_ok]
    rw [backend_extract, pymupdf_extract_tables]
    rw [if_pos hp]
  | camelot =>
    rw [extract_ok]
    obtain ⟨r, hr⟩ := camelot_extract_tables_isOk (w.camelotLattice p) (w.camelotStream p)
    rw [backend_extract, hr]
  | tabula =>
    rw [extract_ok]
    obtain ⟨r, hr⟩ := tabula_extract_tables_isOk (w.tabulaLattice p) (w.tabulaStream p)
    rw [backend_extract, hr]

theorem fallback_loop_eq (w : World) {p : Nat} (hp : p < w.doc.numPages) (bs : List Backend) :
    fallback_loop w p bs =
      .ok (((bs.filter (compatOf w)).map (extract_ok w p)).filter (fun l => !l.isEmpty)) := by
  induction bs with
  | nil => simp [fallback_loop]
  | cons b bs ih =>
    rw [fallback_loop]
    by_cases hb : compatOf w b
    · rw [if_pos hb, backend_extract_eq_ok w hp, ih]
      rw [List.filter_cons, hb]
      simp only [if_true, List.map_cons, List.filter_cons]
      by_cases he : (extract_ok w p b).isEmpty
      · rw [he]
        have : (extract_ok w p b) = [] := List.isEmpty_iff.mp he
        simp [this]
      · have he' : (extract_ok w p b).isEmpty = false := Bool.eq_false_iff.mpr he
        rw [he']
        simp
    · rw [if_neg hb, ih, List.filter_cons]
      have hb' : compatOf w b = false := Bool.eq_false_iff.mpr hb
      simp [hb']

theorem filter_map_filter_erase (f : Backend → List DataFrame) (q : Backend → Bool)
    (b0 : Backend) (hf : f b0 = []) (l : List Backend) :
    ((l.filter q).map f).filter (fun x => !x.isEmpty)
      = ((l.filter (fun b => q b && !(b == b0))).map f).filter (fun x => !x.isEmpty) := by
  induction l with
  | nil => rfl
  | cons b l ih =>
    by_cases hb : b = b0
    · subst hb
      by_cases hq : q b
      · simp only [List.filter_cons, hq, if_true, beq_self_eq_true, Bool.not_true,
          Bool.and_false, Bool.false_eq_true, if_false, List.map_cons, hf]
        simpa using ih
      · have hq' : q b = false := Bool.eq_false_iff.mpr hq
        simp only [List.filter_cons, hq', Bool.false_eq_true, if_false, Bool.false_and]
        exact ih
    · have hb' : (b == b0) = false := beq_eq_false_iff_ne.mpr hb
      by_cases hq : q b
      · simp only [List.filter_cons, hq, if_true, hb', Bool.not_false, Bool.and_true,
          List.map_cons]
        rw [ih]
      · have hq' : q b = false := Bool.eq_false_iff.mpr hq
        simp only [List.filter_cons, hq', Bool.false_eq_true, if_false, Bool.false_and]
        exact ih

theorem insertByY0_perm (b : TextBlock) (l : List TextBlock) :
    (insertByY0 b l).Perm (b :: l) := by
  induction l with
  | nil => exact List.Perm.refl _
  | cons c cs ih =>
    rw [insertByY0]
    by_cases hc : c.rect.y0 < b.rect.y0
    · rw [if_pos (by simpa using hc)]
      exact (List.Perm.cons c ih).trans (List.Perm.swap b c cs)
    · rw [if_neg (by simpa using hc)]

theorem sortBlocks_perm (l : List TextBlock) : (sortBlocks l).Perm l := by
  induction l with
  | nil => exact List.Perm.refl _
  | cons b bs ih =>
    rw [sortBlocks]
    exact (insertByY0_perm b (sortBlocks bs)).trans (List.Perm.cons b ih)

theorem all_isna_eq_isEmpty (l : List String) : l.all str_isna = l.isEmpty := by
  induction l with
  | nil => rfl
  | cons a l _ => simp [str_isna]

theorem pages_loop_filter (w : World) (l : List Nat) :
    pages_loop w l = pages_loop w (l.filter (fun p => decide (p < w.doc.numPages))) := by
  induction l with
  | nil => rfl
  | cons p ps ih =>
    by_cases hp : p < w.doc.numPages
    · rw [List.filter_cons, decide_eq_true hp]
      simp only [if_true]
      conv_lhs => rw [pages_loop]
      conv_rhs => rw [pages_loop]
      rw [if_neg (Nat.not_le.mpr hp), if_neg (Nat.not_le.mpr hp), ih]
    · rw [List.filter_cons, decide_eq_false (fun hc => hp hc)]
      simp only [Bool.false_eq_true, if_false]
      rw [pages_loop, if_pos (Nat.le_of_not_lt hp)]
      exact ih

theorem pages_loop_bounds (w : World) (l : List Nat) (res : List TaggedTable)
    (h : pages_loop w l = .ok res) : ∀ t ∈ res, t.page < w.doc.numPages := by
  induction l generalizing res with
  | nil =>
    rw [pages_loop] at h
    cases h
    simp
  | cons p ps ih =>
    rw [pages_loop] at h
    by_cases hp : w.doc.numPages ≤ p
    · rw [if_pos hp] at h
      exact ih res h
    · rw [if_neg hp] at h
      rcases hc : page_candidates w p with e | cands
      · rw [hc] at h; cases h
      · rw [hc] at h
        rcases hr : pages_loop w ps with e | rest
        · rw [hr] at h; cases h
        · rw [hr] at h
          cases h
          intro t ht
          rcases List.mem_append.mp ht with hm | hm
          · obtain ⟨u, _, rfl⟩ := List.mem_map.mp hm
            exact Nat.lt_of_not_le hp
          · exact ih rest hr t hm

/-! ## Claim theorems -/

/-- C1: `combine_tables` assigns each kept non-empty candidate the
shape-plus-corner-sample signature `tableSig`; the reconciled output
has pairwise-distinct signatures, each kept table is the first
candidate of the flattened input carrying its signature, and every
non-empty candidate has its signature represented in the output. -/
theorem combine_tables_signature_dedup (all_tables : List (List DataFrame)) :
    List.Pairwise (fun a b => tableSig a ≠ tableSig b) (combine_tables all_tables)
    ∧ (∀ t ∈ combine_tables all_tables,
        (nonEmptyFlatten all_tables).find? (fun u => tableSig u == tableSig t) = some t)
    ∧ ∀ u ∈ nonEmptyFlatten all_tables,
        ∃ t ∈ combine_tables all_tables, tableSig t = tableSig u := by
  by_cases he : all_tables.isEmpty
  · have h0 : all_tables = [] := List.isEmpty_iff.mp he
    subst h0
    exact ⟨by simp [combine_tables], by simp [combine_tables],
      by simp [nonEmptyFlatten]⟩
  · have hc : combine_tables all_tables = dedupLoop (nonEmptyFlatten all_tables) [] := by
      rw [combine_tables, if_neg he]
    have hne : ∀ u ∈ nonEmptyFlatten all_tables, dfEmpty u = false := by
      intro u hu
      have h2 := (List.mem_filter.mp hu).2
      simpa using h2
    refine ⟨hc ▸ dedupLoop_pairwise _ _, ?_, ?_⟩
    · intro t ht
      rw [hc] at ht
      exact dedupLoop_find_first [] hne ht
    · intro u hu
      rcases dedupLoop_sig_covered ([] : List String) hu (hne u hu) with hmem | ⟨t, ht, hsig⟩
      · simp at hmem
      · exact ⟨t, hc ▸ ht, hsig⟩

/-- C1 witness: two 3×4 frames sharing the 3×3 corner reconcile to the
first one, which is the first input candidate with that signature. -/
theorem combine_tables_signature_dedup_witness :
    (nonEmptyFlatten [[dfA], [dfB]]).find? (fun u => tableSig u == tableSig dfA) = some dfA
    ∧ List.Pairwise (fun a b => tableSig a ≠ tableSig b) (combine_tables [[dfA], [dfB]]) :=
  ⟨(combine_tables_signature_dedup [[dfA], [dfB]]).2.1 dfA (by decide),
   (combine_tables_signature_dedup [[dfA], [dfB]]).1⟩

/-- C2: in the table-aware branch of `pdf_to_docx`, a text block is
emitted as free text exactly as many times as it occurs among the
original page blocks when it intersects no detected table rectangle,
and zero times when it intersects one — never both, no duplication, no
loss. -/
theorem pdf_to_docx_block_partition (page : PageModel) (pageTables : List DataFrame)
    (b : TextBlock) (h : pageTables ≠ []) :
    (page_render page pageTables).count (RenderUnit.text b)
      = if overlapsAnyTable b page.tableRects then 0 else page.blocks.count b := by
  have he : pageTables.isEmpty = false := by
    cases pageTables with
    | nil => exact absurd rfl h
    | cons x xs => rfl
  rw [page_render, he]
  simp only [Bool.false_eq_true, if_false]
  rw [List.count_append]
  have hdec : (pageTables.flatMap fun t =>
      [RenderUnit.tableHeading, RenderUnit.table t, RenderUnit.spacer]).count
        (RenderUnit.text b) = 0 := by
    rw [List.count_eq_zero]
    intro hm
    rw [List.mem_flatMap] at hm
    obtain ⟨t, _, hm⟩ := hm
    simp at hm
  rw [hdec, Nat.add_zero]
  have hinj : Function.Injective RenderUnit.text := by
    intro x y hxy
    cases hxy
    rfl
  rw [List.count_map_of_injective _ _ hinj]
  by_cases hov : overlapsAnyTable b page.tableRects
  · rw [if_pos hov, List.count_eq_zero]
    intro hm
    have h2 := (List.mem_filter.mp hm).2
    rw [hov] at h2
    simp at h2
  · have hov' : overlapsAnyTable b page.tableRects = false := Bool.eq_false_iff.mpr hov
    rw [if_neg hov, List.count_filter (by simp [hov'])]
    exact (sortBlocks_perm page.blocks).count_eq b

/-- C2 witness: on a page with one block clear of the single table
rectangle, the block is emitted exactly once. -/
theorem pdf_to_docx_block_partition_witness :
    (page_render pgDemo [dfDemo]).count (RenderUnit.text blkDemo)
      = if overlapsAnyTable blkDemo pgDemo.tableRects then 0 else pgDemo.blocks.count blkDemo :=
  pdf_to_docx_block_partition pgDemo [dfDemo] blkDemo (by decide)

/-- C3 counterexample: the PyMuPDF adapter has no local handler — on an
out-of-range page of a successfully opened one-page document it raises
`IndexError`, and a failed `fitz.open` propagates, contradicting the
claim that every adapter converts failures to an empty list. -/
theorem pymupdf_extract_raises_out_of_range :
    pymupdf_extract_tables (.ok docC3) 1 = .error .indexError
    ∧ pymupdf_extract_tables (.error .openError) 0 = .error .openError :=
  ⟨rfl, rfl⟩

/-- C3 amended: the Camelot and Tabula adapters wrap their whole bodies
in a catch-all handler and therefore never raise, returning their
result or an empty list for every outcome of the underlying library
calls; only the PyMuPDF adapter lacks such a handler. -/
theorem camelot_tabula_extract_never_raise (lc ls : Except PyErr (List CamelotTable))
    (tl ts : Except PyErr (List DataFrame)) :
    (∃ r, camelot_extract_tables lc ls = .ok r)
    ∧ ∃ r, tabula_extract_tables tl ts = .ok r :=
  ⟨camelot_extract_tables_isOk lc ls, tabula_extract_tables_isOk tl ts⟩

/-- C4: `get_best_extractor` prefers Camelot, then Tabula, then the
first remaining compatible extractor, and returns PyMuPDF when the
compatible set is empty; being a total function it always returns a
backend. -/
theorem get_best_extractor_priority (compat : Backend → Bool) :
    (compat Backend.camelot = true → get_best_extractor compat = Backend.camelot)
    ∧ (compat Backend.camelot = false → compat Backend.tabula = true →
        get_best_extractor compat = Backend.tabula)
    ∧ (compat Backend.camelot = false → compat Backend.tabula = false →
        create_extractors.filter compat ≠ [] →
        get_best_extractor compat = (create_extractors.filter compat).headD Backend.pymupdf)
    ∧ (create_extractors.filter compat = [] →
        get_best_extractor compat = Backend.pymupdf) := by
  rcases h1 : compat Backend.pymupdf <;> rcases h2 : compat Backend.camelot <;>
    rcases h3 : compat Backend.tabula <;>
    simp [get_best_extractor, create_extractors, List.filter_cons, h1, h2, h3]

/-- C4 witness: with only Tabula compatible, Tabula is selected. -/
theorem get_best_extractor_priority_witness :
    get_best_extractor (fun b => b == Backend.tabula) = Backend.tabula :=
  (get_best_extractor_priority (fun b => b == Backend.tabula)).2.1 rfl rfl

/-- C5: when the selected best extractor yields zero tables for an
in-range page, the collection handed to deduplication is exactly the
non-empty results of every compatible extractor, which coincides with
the union over the compatible extractors other than the selected one. -/
theorem extract_all_tables_fallback_union (w : World) (p : Nat)
    (hp : p < w.doc.numPages)
    (hb : extract_ok w p (get_best_extractor (compatOf w)) = []) :
    page_candidates w p
      = .ok (((create_extractors.filter (compatOf w)).map (extract_ok w p)).filter
          (fun l => !l.isEmpty))
    ∧ ((create_extractors.filter (compatOf w)).map (extract_ok w p)).filter
          (fun l => !l.isEmpty)
      = ((create_extractors.filter (fun b =>
            compatOf w b && !(b == get_best_extractor (compatOf w)))).map
          (extract_ok w p)).filter (fun l => !l.isEmpty) := by
  constructor
  · rw [page_candidates, backend_extract_eq_ok w hp, hb]
    simp only [List.isEmpty_nil, if_true]
    exact fallback_loop_eq w hp create_extractors
  · exact filter_map_filter_erase (extract_ok w p) (compatOf w) _ hb create_extractors

/-- C5 witness: in the demonstration world the selected Camelot backend
finds nothing on page 0 and the page is rerun through the compatible
set. -/
theorem extract_all_tables_fallback_union_witness :
    page_candidates wdemo 0
      = .ok (((create_extractors.filter (compatOf wdemo)).map (extract_ok wdemo 0)).filter
          (fun l => !l.isEmpty))
    ∧ ((create_extractors.filter (compatOf wdemo)).map (extract_ok wdemo 0)).filter
          (fun l => !l.isEmpty)
      = ((create_extractors.filter (fun b =>
            compatOf wdemo b && !(b == get_best_extractor (compatOf wdemo)))).map
          (extract_ok wdemo 0)).filter (fun l => !l.isEmpty) :=
  extract_all_tables_fallback_union wdemo 0 (by decide) (by rfl)

/-- C6 counterexample: a 1×1 candidate whose only cell is the empty
string has zero non-empty cells, yet `combine_tables` keeps it — only a
zero-length axis triggers the pandas emptiness discard. -/
theorem combine_tables_keeps_all_blank_candidate :
    combine_tables [[dfBlank]] = [dfBlank]
    ∧ dfBlank.rows.all (fun r => r.all (fun s => s.isEmpty)) = true :=
  ⟨rfl, rfl⟩

/-- C6 amended: `combine_tables` discards exactly the candidates that
are empty in the pandas sense — zero rows or zero columns — before
signature computation; every reconciled table has at least one row and
one column (a candidate whose cells are all empty strings is kept). -/
theorem combine_tables_discards_zero_axis (all_tables : List (List DataFrame))
    (t : DataFrame) (h : t ∈ combine_tables all_tables) :
    t.rows.length ≠ 0 ∧ t.ncols ≠ 0 := by
  have h2 := (combine_tables_mem h).2
  simpa [dfEmpty] using h2

/-- C6 amended witness: the kept 1×1 frame has nonzero axes. -/
theorem combine_tables_discards_zero_axis_witness :
    dfW6.rows.length ≠ 0 ∧ dfW6.ncols ≠ 0 :=
  combine_tables_discards_zero_axis [[dfW6]] dfW6 (by decide)

/-- C7 counterexample: a 2×2 PyMuPDF table whose first row has a blank
first cell still gets its first row promoted to header, although the
first row does not contain non-empty values in every cell. -/
theorem pymupdf_promotes_header_with_blank_cell :
    processRawTable rtBlankCell = some ⟨some ["", "x"], [["x", "x"]], 2⟩
    ∧ ["", "x"].all (fun s => !s.isEmpty) = false :=
  ⟨rfl, rfl⟩

/-- C7 amended: since every cell is a string and strings are never NA
in pandas, the `isna` guard never blocks promotion: the first row is
promoted to header exactly when the grid has at least one row and at
least one column, regardless of cell contents. -/
theorem pymupdf_header_promotion_iff (t : RawTable) :
    headerPromoted (processRawTable t)
      = (decide (0 < t.row_count) && decide (0 < t.column_count)) := by
  rcases hr : t.row_count with _ | n <;> rcases hc : t.column_count with _ | m <;>
    simp [processRawTable, buildRows, hr, hc, headerPromoted, dfEmpty, firstRowAllNa,
      str_isna, List.range_succ_eq_map]

/-- C8: reconciliation is idempotent — running `combine_tables` on its
own (wrapped) output returns that output unchanged. -/
theorem combine_tables_idempotent (all_tables : List (List DataFrame)) :
    combine_tables [combine_tables all_tables] = combine_tables all_tables := by
  have hmem : ∀ t ∈ combine_tables all_tables, dfEmpty t = false :=
    fun t ht => (combine_tables_mem ht).2
  have hpair : List.Pairwise (fun a b => tableSig a ≠ tableSig b)
      (combine_tables all_tables) := by
    rw [combine_tables]
    by_cases he : all_tables.isEmpty
    · rw [if_pos he]; exact List.Pairwise.nil
    · rw [if_neg he]; exact dedupLoop_pairwise _ _
  rw [combine_tables]
  simp only [List.isEmpty_cons, Bool.false_eq_true, if_false]
  have hflat : nonEmptyFlatten [combine_tables all_tables] = combine_tables all_tables := by
    rw [nonEmptyFlatten]
    rw [List.flatten_cons, List.flatten_nil, List.append_nil]
    exact List.filter_eq_self.mpr (fun t ht => by rw [hmem t ht]; rfl)
  rw [hflat]
  exact dedupLoop_eq_self [] hmem hpair (fun t _ => List.not_mem_nil _)

/-- C9 counterexample: an exception from `import jpype` that is not an
`ImportError` escapes the Tabula compatibility probe instead of being
treated as not compatible. -/
theorem tabula_probe_propagates_non_import_error :
    tabula_is_compatible .otherError (.ok ()) = .error .runtime := rfl

/-- C9 amended: the Camelot probe absorbs every failure (failed open,
zero-page document) into `false`; the Tabula probe absorbs an
`ImportError` — including a failing java subprocess check — into a
boolean; only a non-ImportError raised by the import itself
propagates. -/
theorem probes_absorb_expected_failures :
    (∀ e : PyErr, camelot_is_compatible (.error e) = false)
    ∧ (∀ ft pt, camelot_is_compatible (.ok ⟨0, ft, pt⟩) = false)
    ∧ (∀ javaCheck : Except PyErr Unit, ∃ b : Bool,
        tabula_is_compatible .importError javaCheck = .ok b)
    ∧ (∀ e : PyErr, tabula_is_compatible .importError (.error e) = .ok false) := by
  refine ⟨fun e => rfl, fun ft pt => rfl, fun jc => ?_, fun e => rfl⟩
  rcases jc with e | u
  · exact ⟨false, rfl⟩
  · exact ⟨true, rfl⟩

/-- C10: `extract_all_tables` silently skips requested pages at or past
the page count — the run equals the run on the in-range sublist — and
every table in a successful result is tagged with a valid 0-based page
index. -/
theorem extract_all_tables_page_bounds (w : World) (l : List Nat) :
    extract_all_tables w (some l)
      = extract_all_tables w (some (l.filter (fun p => decide (p < w.doc.numPages))))
    ∧ ∀ res, extract_all_tables w (some l) = .ok res →
        ∀ t ∈ res, t.page < w.doc.numPages := by
  constructor
  · exact pages_loop_filter w l
  · intro res h
    exact pages_loop_bounds w l res h

/-- C10 witness: requesting pages 0 and 5 of a one-page document
behaves like requesting page 0 alone, and the produced table is tagged
with page 0 < 1. -/
theorem extract_all_tables_page_bounds_witness :
    extract_all_tables wdemo (some [0, 5])
      = extract_all_tables wdemo (some ([0, 5].filter (fun p => decide (p < wdemo.doc.numPages))))
    ∧ (TaggedTable.mk dfDemo 0).page < wdemo.doc.numPages :=
  ⟨(extract_all_tables_page_bounds wdemo [0, 5]).1,
   (extract_all_tables_page_bounds wdemo [0, 5]).2 [TaggedTable.mk dfDemo 0] rfl
     (TaggedTable.mk dfDemo 0) (List.mem_singleton.mpr rfl)⟩
